import Mathlib

/-!
Shallow embedding of the zrythm port-graph and recording subsystem
(src/src/audio/port.c and src/src/audio/recording_manager.c).

C machine floats are modelled as exact rationals; C fixed-capacity
arrays are modelled as total functions from Nat together with an
explicit element count, which mirrors the in-place shifting loops of
the C code; pointers to ports are modelled as natural-number port ids
and the global heap of ports as a total function from ids to port
records.
-/

namespace Zrythm

/-! Generic array helpers mirroring the macros of utils/arrays.h
(array_contains, array_delete_return_pos) operating on a function
plus an element count.  The file utils/arrays.h is not under src;
these are modelled from the spec wording: membership test on the
first n slots, removal of the first matching slot with a left shift
of the remaining elements. -/

/-- Modelled from the spec: array_contains scans slots 0..n-1 for x. -/
def array_contains {α : Type} [DecidableEq α] (f : Nat → α) (n : Nat) (x : α) : Bool :=
  match n with
  | 0 => false
  | m + 1 => array_contains f m x || decide (f m = x)

/-- Modelled from the spec: index of the first slot among 0..n-1 holding x,
matching the scan order of array_delete_return_pos. -/
def findPos {α : Type} [DecidableEq α] (f : Nat → α) (n : Nat) (x : α) : Option Nat :=
  match n with
  | 0 => none
  | m + 1 =>
    match findPos f m x with
    | some p => some p
    | none => if f m = x then some m else none

/-- Number of slots among 0..n-1 holding x. -/
def countOcc {α : Type} [DecidableEq α] (f : Nat → α) (n : Nat) (x : α) : Nat :=
  match n with
  | 0 => 0
  | m + 1 => countOcc f m x + (if f m = x then 1 else 0)

/-- Left shift performed by array_delete_return_pos and by the
identifier shifting loops of port_disconnect: slot j for
pos ≤ j < n - 1 receives the old slot j + 1; other slots keep their
old (possibly stale) contents.  n is the element count before the
deletion. -/
def shiftDel {α : Type} (f : Nat → α) (pos n : Nat) : Nat → α :=
  fun j => if pos ≤ j ∧ j < n - 1 then f (j + 1) else f j

/-! Port data model (inc/audio/port.h modelled as used by
src/src/audio/port.c). -/

inductive PortType
  | unknown
  | control
  | audio
  | event
  | cv
  deriving DecidableEq

inductive PortFlow
  | unknownFlow
  | input
  | output
  deriving DecidableEq

inductive PortOwnerType
  | backend
  | plugin
  | track
  | prefader
  | fader
  | sampleProcessor
  deriving DecidableEq

inductive PortInternalType
  | internalNone
  | lv2Port
  | jackPort
  deriving DecidableEq

structure PortIdentifier where
  label : Nat
  ownerType : PortOwnerType
  ptype : PortType
  flow : PortFlow
  flagStereoR : Bool
  trackPos : Int
  pluginSlot : Int
  deriving DecidableEq

/-- Port id standing for a C pointer to a Port struct. -/
abbrev PortId := Nat

/-- Model of struct Port restricted to the fields read or written by
the functions under verification.  buf holds the audio sample buffer,
control the lv2_port->control runtime value, minf and maxf the
lv2_port->lv2_control bounds, extAudio the samples arriving from the
JACK backend buffer. -/
structure PortRec where
  identifier : PortIdentifier
  num_dests : Nat
  dests : Nat → PortId
  dest_ids : Nat → PortIdentifier
  multipliers : Nat → ℚ
  dest_locked : Nat → Bool
  dest_enabled : Nat → Bool
  num_srcs : Nat
  srcs : Nat → PortId
  src_ids : Nat → PortIdentifier
  internal_type : PortInternalType
  base_value : ℚ
  control : ℚ
  minf : ℚ
  maxf : ℚ
  buf : Nat → ℚ
  midi_events : List (Nat × Nat)
  extAudio : Nat → ℚ
  extMidi : List (Nat × Nat)

/-- The global heap of ports. -/
abbrev PortGraph := PortId → PortRec

/-- First half of port_disconnect (lines 606-623): delete dest from
the dests pointer array of src (first occurrence, left shift) and
shift the parallel dest_ids identifiers from the same position.  The
multiplier and flag arrays are not touched, exactly as in the C
code. -/
def disconnectDests (s : PortGraph) (src dest : PortId) : PortGraph :=
  let sp := s src
  match findPos sp.dests sp.num_dests dest with
  | some pos =>
    Function.update s src
      { sp with
        num_dests := sp.num_dests - 1
        dests := shiftDel sp.dests pos sp.num_dests
        dest_ids := shiftDel sp.dest_ids pos sp.num_dests }
  | none => s

/-- Second half of port_disconnect (lines 625-642): delete src from
the srcs pointer array of dest and shift the parallel src_ids. -/
def disconnectSrcs (s : PortGraph) (src dest : PortId) : PortGraph :=
  let dp := s dest
  match findPos dp.srcs dp.num_srcs src with
  | some pos =>
    Function.update s dest
      { dp with
        num_srcs := dp.num_srcs - 1
        srcs := shiftDel dp.srcs pos dp.num_srcs
        src_ids := shiftDel dp.src_ids pos dp.num_srcs }
  | none => s

/-- Embeds port_disconnect of src/src/audio/port.c lines 600-648:
the two deletions in the order of the C code.  Always returns 0. -/
def port_disconnect (s : PortGraph) (src dest : PortId) : PortGraph × Int :=
  (disconnectSrcs (disconnectDests s src dest) src dest, 0)

/-- Type compatibility test of port_connect (lines 557-560 negated):
identical types, or cv driving control. -/
def typesCompatible (st dt : PortType) : Bool :=
  decide (st = dt) || (decide (st = PortType.cv) && decide (dt = PortType.control))

/-- Append step at the source port (lines 565-572): dest, its
identifier, the unit multiplier and the lock and enabled flags are
written at slot num_dests, then num_dests is incremented. -/
def connectAppendDests (s : PortGraph) (src dest : PortId) (locked : Bool) :
    PortGraph :=
  let sp := s src
  Function.update s src
    { sp with
      dests := Function.update sp.dests sp.num_dests dest
      dest_ids := Function.update sp.dest_ids sp.num_dests (s dest).identifier
      multipliers := Function.update sp.multipliers sp.num_dests 1
      dest_locked := Function.update sp.dest_locked sp.num_dests locked
      dest_enabled := Function.update sp.dest_enabled sp.num_dests true
      num_dests := sp.num_dests + 1 }

/-- Append step at the destination port (lines 573-577): src and its
identifier are written at slot num_srcs, then num_srcs is
incremented. -/
def connectAppendSrcs (s : PortGraph) (src dest : PortId) : PortGraph :=
  let dp := s dest
  Function.update s dest
    { dp with
      srcs := Function.update dp.srcs dp.num_srcs src
      src_ids := Function.update dp.src_ids dp.num_srcs (s src).identifier
      num_srcs := dp.num_srcs + 1 }

/-- Side effect of a cv to control connection (lines 579-589): when
the destination is an lv2 internal port, its base value receives the
current lv2 control value. -/
def connectSeedBase (s : PortGraph) (src dest : PortId) : PortGraph :=
  if (s src).identifier.ptype = PortType.cv ∧
     (s dest).identifier.ptype = PortType.control then
    if (s dest).internal_type = PortInternalType.lv2Port then
      let dp := s dest
      Function.update s dest { dp with base_value := dp.control }
    else s
  else s

/-- Embeds port_connect of src/src/audio/port.c lines 548-595: first
port_disconnect (unconditionally), then the type compatibility check
returning -1 on failure, then the appends to the dests arrays of src
and the srcs arrays of dest, then, for a cv source into a control
destination with an lv2 internal port, base_value receives the
current lv2 control value.  Returns 0 on success. -/
def port_connect (s : PortGraph) (src dest : PortId) (locked : Bool) : PortGraph × Int :=
  let s0 := (port_disconnect s src dest).1
  if typesCompatible (s0 src).identifier.ptype (s0 dest).identifier.ptype then
    (connectSeedBase
      (connectAppendSrcs (connectAppendDests s0 src dest locked) src dest)
      src dest, 0)
  else
    (s0, -1)

/-- Embeds ports_connected of src/src/audio/port.c lines 653-661:
membership of dest in the dests array of src. -/
def ports_connected (s : PortGraph) (src dest : PortId) : Bool :=
  array_contains (s src).dests (s src).num_dests dest

/-- List of source port ids of p (the first num_srcs slots of the
srcs array, in order). -/
def srcsList (s : PortGraph) (p : PortId) : List PortId :=
  (List.range (s p).num_srcs).map (s p).srcs

/-- Modelled from the spec: port_get_dest_index (declared in
inc/audio/port.h, not under src) returns the index of dest inside
the dests array of port; it is the index of the connection whose
multiplier applies. -/
def port_get_dest_index (s : PortGraph) (port dest : PortId) : Nat :=
  (findPos (s port).dests (s port).num_dests dest).getD 0

/-- The CLAMP macro of glib as used at src/src/audio/port.c line
1036: the high bound is checked first. -/
def clampG (x lo hi : ℚ) : ℚ :=
  if x > hi then hi else if x < lo then lo else x

/-- Embeds port_sum_data_from_jack of src/src/audio/port.c lines
852-873 together with the two receive helpers it calls (lines
736-801): a no-op unless the port is a non-backend JACK-internal
input; otherwise events of the external JACK buffer whose time lies
in [start_frame, start_frame + nframes) are appended to the midi
event buffer and, for an audio port, the external samples are added
to buf over [start_frame, start_frame + nframes). -/
def port_sum_data_from_jack (s : PortGraph) (p : PortId)
    (start_frame nframes : Nat) : PortGraph :=
  let pp := s p
  if pp.identifier.ownerType = PortOwnerType.backend ∨
     pp.internal_type ≠ PortInternalType.jackPort ∨
     pp.identifier.flow ≠ PortFlow.input then s
  else
    let withMidi :=
      if pp.identifier.ptype = PortType.event then
        pp.extMidi.filter
          (fun e => start_frame ≤ e.1 ∧ e.1 < start_frame + nframes)
      else []
    let newBuf : Nat → ℚ :=
      if pp.identifier.ptype = PortType.audio then
        fun i =>
          if start_frame ≤ i ∧ i < start_frame + nframes then
            pp.buf i + pp.extAudio i
          else pp.buf i
      else pp.buf
    Function.update s p
      { pp with midi_events := pp.midi_events ++ withMidi, buf := newBuf }

/-- One source step of the audio summation loop at src/src/audio/port.c
lines 980-992.  The loop upper bound is the literal nframes of the C
code (not start_frame + nframes).  When the source is the port itself
the C code reads the buffer being written, so the step reads the
accumulated buffer in that case. -/
def audioSumStep (s : PortGraph) (p : PortId) (start_frame nframes : Nat)
    (b : Nat → ℚ) (k : PortId) : Nat → ℚ :=
  fun l =>
    if start_frame ≤ l ∧ l < nframes then
      b l + (if k = p then b l else (s k).buf l)
    else b l

/-- One source step of the control modulation loop at
src/src/audio/port.c lines 1003-1044, carrying the running lv2
control value and the first_cv flag.  Non-cv sources are skipped. -/
def controlStep (s : PortGraph) (p : PortId) (acc : ℚ × Bool) (k : PortId) :
    ℚ × Bool :=
  let pp := s p
  if (s k).identifier.ptype = PortType.cv then
    let depth_range := (pp.maxf - pp.minf) / 2
    let val_to_use := if acc.2 then pp.base_value else acc.1
    (clampG
      (val_to_use +
        depth_range * (s k).buf 0 *
          (s k).multipliers (port_get_dest_index s k p))
      pp.minf pp.maxf, false)
  else acc

/-- Event branch of port_sum_signal_from_inputs (lines 928-966,
noroll false): pull JACK events, then append the in-range events of
every source in order (the helper midi_events_append is not under src
and is modelled from the spec: append every in-range event of the
source, preserving order). -/
def sumEvent (s : PortGraph) (p : PortId) (start_frame nframes : Nat) :
    PortGraph :=
  let s1 := port_sum_data_from_jack s p start_frame nframes
  let pp := s1 p
  let newEvents :=
    (srcsList s1 p).foldl
      (fun evs k =>
        evs ++ (s1 k).midi_events.filter
          (fun e => start_frame ≤ e.1 ∧ e.1 < start_frame + nframes))
      pp.midi_events
  Function.update s1 p { pp with midi_events := newEvents }

/-- Audio noroll branch (lines 968-975): zero the buffer over the
literal range [start_frame, nframes) of the C loop. -/
def sumAudioNoroll (s : PortGraph) (p : PortId) (start_frame nframes : Nat) :
    PortGraph :=
  let pp := s p
  Function.update s p
    { pp with
      buf := fun l =>
        if start_frame ≤ l ∧ l < nframes then 0 else pp.buf l }

/-- Audio branch (lines 977-995): pull JACK samples, then add every
source buffer element-wise over the literal range
[start_frame, nframes) of the C loop. -/
def sumAudio (s : PortGraph) (p : PortId) (start_frame nframes : Nat) :
    PortGraph :=
  let s1 := port_sum_data_from_jack s p start_frame nframes
  let pp := s1 p
  let newBuf :=
    (srcsList s1 p).foldl (audioSumStep s1 p start_frame nframes) pp.buf
  Function.update s1 p { pp with buf := newBuf }

/-- Control branch (lines 997-1045): fold the cv sources, writing the
clamped running value into the lv2 control value; the base value is
only read. -/
def sumControl (s : PortGraph) (p : PortId) : PortGraph :=
  let pp := s p
  let res := (srcsList s p).foldl (controlStep s p) (pp.control, true)
  Function.update s p { pp with control := res.1 }

/-- Embeds port_sum_signal_from_inputs of src/src/audio/port.c lines
912-1050, dispatching on the port signal kind.  Sending data out to
JACK does not change any port field and is not represented. -/
def port_sum_signal_from_inputs (s : PortGraph) (p : PortId)
    (start_frame nframes : Nat) (noroll : Bool) : PortGraph :=
  match (s p).identifier.ptype with
  | PortType.event =>
    if noroll then s else sumEvent s p start_frame nframes
  | PortType.audio =>
    if noroll then sumAudioNoroll s p start_frame nframes
    else sumAudio s p start_frame nframes
  | PortType.control => sumControl s p
  | _ => s

/-! Panning (src/src/audio/port.c lines 1228-1279). -/

inductive PanLaw
  | zeroDB
  | minus3DB
  | minus6DB
  deriving DecidableEq

inductive PanAlgorithm
  | linear
  | squareRoot
  | sineLaw
  deriving DecidableEq

/-- The C float constant M_PIF of src/src/audio/port.c line 25,
taken as an exact rational; only the sine pan law reads it and no
claim depends on its value. -/
def M_PIF : ℚ := 3.14159265358979323846

/-- The left and right scalars computed once per invocation by
port_apply_pan (lines 1249-1263).  The machine functions sinf and
sqrtf are environment parameters of the embedding. -/
def panScalars (algo : PanAlgorithm) (sinf sqrtf : ℚ → ℚ) (pan : ℚ) :
    ℚ × ℚ :=
  match algo with
  | PanAlgorithm.sineLaw =>
    (sinf ((1 - pan) * (M_PIF / 2)), sinf (pan * (M_PIF / 2)))
  | PanAlgorithm.squareRoot => (sqrtf (1 - pan), sqrtf pan)
  | PanAlgorithm.linear => (1 - pan, pan)

/-- Embeds port_apply_pan of src/src/audio/port.c lines 1235-1279:
compute the scalars once, then multiply every non-zero sample in
[start_frame, start_frame + nframes) by the right scalar when the
port carries the stereo-right flag, by the left scalar otherwise.
The pan_law parameter is accepted and ignored, as in the C code. -/
def port_apply_pan (s : PortGraph) (p : PortId) (pan : ℚ)
    (_law : PanLaw) (algo : PanAlgorithm) (sinf sqrtf : ℚ → ℚ)
    (start_frame nframes : Nat) : PortGraph :=
  let pp := s p
  let lr := panScalars algo sinf sqrtf pan
  let scal := if pp.identifier.flagStereoR then lr.2 else lr.1
  Function.update s p
    { pp with
      buf := fun i =>
        if start_frame ≤ i ∧ i < start_frame + nframes ∧ pp.buf i ≠ 0 then
          pp.buf i * scal
        else pp.buf i }

/-! Recording pipeline model (src/src/audio/recording_manager.c). -/

inductive TrackType
  | instrument
  | midiKind
  | audioKind
  | master
  | chord
  | bus
  deriving DecidableEq

/-- Modelled from the spec: track_type_can_record (declared in
inc/audio/track.h, not under src) is true for the recordable track
types, the ones with a MIDI or audio recording path. -/
def track_type_can_record (t : TrackType) : Bool :=
  decide (t = TrackType.instrument) || decide (t = TrackType.midiKind) ||
    decide (t = TrackType.audioKind)

/-- Modelled from the spec: track_has_piano_roll (not under src) is
true for the MIDI-capable track types. -/
def track_has_piano_roll (t : TrackType) : Bool :=
  decide (t = TrackType.instrument) || decide (t = TrackType.midiKind)

/-- Recording events as enqueued by
recording_manager_handle_recording; the payload of a midiData event
is the copied MIDI message, and hasEvent mirrors the has_midi_event
field (the C code leaves the message field stale when hasEvent is
false; the model carries (0, 0) there). -/
inductive RecEvent
  | stopTrack
  | splitTrack
  | startTrack
  | stopAutomation (portId : Nat)
  | splitAutomation (portId : Nat)
  | startAutomation (portId : Nat)
  | automationSample (portId : Nat)
  | midiData (hasEvent : Bool) (ev : Nat × Nat)
  | audioData
  deriving DecidableEq

/-- Whether an event is one of the four per-automation-track kinds. -/
def RecEvent.isAutomation : RecEvent → Bool
  | RecEvent.stopAutomation _ => true
  | RecEvent.splitAutomation _ => true
  | RecEvent.startAutomation _ => true
  | RecEvent.automationSample _ => true
  | _ => false

/-- Whether an event carries raw track data (MIDI or audio). -/
def RecEvent.isTrackData : RecEvent → Bool
  | RecEvent.midiData _ _ => true
  | RecEvent.audioData => true
  | _ => false

structure TransportRec where
  recording : Bool
  rolling : Bool
  punch_mode : Bool
  punch_in_frames : Int
  punch_out_frames : Int
  loop_start_frames : Int
  loop_end_frames : Int

structure TrackRecState where
  ty : TrackType
  recording : Bool
  has_recording_region : Bool
  midi_in_events : List (Nat × Nat)

/-- Per automation track inputs of the decision loop.
should_be_recording abstracts the result of
automation_track_should_be_recording (not under src) for this cycle. -/
structure AutoTrackRec where
  portId : Nat
  recording_started : Bool
  should_be_recording : Bool

structure RecCycleInput where
  transport : TransportRec
  track : TrackRecState
  ats : List AutoTrackRec
  g_start_frames : Int
  local_offset : Nat
  nframes : Nat
  reached_loop_end : Bool

/-- Modelled from the spec:
transport_position_is_inside_punch_range (not under src) tests
whether the cycle start position falls inside the configured punch
range.  When punch mode is off the C code sets the flag to true
directly (lines 215-226). -/
def insidePunchRange (i : RecCycleInput) : Bool :=
  if i.transport.punch_mode then
    decide (i.transport.punch_in_frames ≤ i.g_start_frames) &&
      decide (i.g_start_frames < i.transport.punch_out_frames)
  else true

/-- The conjunction whose negation guards the stop branch at
src/src/audio/recording_manager.c lines 228-231. -/
def gatingOk (i : RecCycleInput) : Bool :=
  i.transport.recording && i.track.recording && i.transport.rolling &&
    insidePunchRange i

/-- Events pushed for one automation track in the loop at lines
293-384: a stop event when the track should no longer be recording
but had started; then, when it should be recording, a split event at
a loop-end tail or a start event when not yet started, and an
automation data sample unless a split was pushed this cycle. -/
def automationCycleEvents (i : RecCycleInput) (at_ : AutoTrackRec) :
    List RecEvent :=
  let stopEvs :=
    if (!i.transport.rolling || !insidePunchRange i ||
        !at_.should_be_recording) && at_.recording_started then
      [RecEvent.stopAutomation at_.portId]
    else []
  let restEvs :=
    if i.transport.rolling && insidePunchRange i &&
       at_.should_be_recording then
      if at_.recording_started && i.reached_loop_end then
        [RecEvent.splitAutomation at_.portId]
      else if !at_.recording_started then
        [RecEvent.startAutomation at_.portId,
         RecEvent.automationSample at_.portId]
      else
        [RecEvent.automationSample at_.portId]
    else []
  stopEvs ++ restEvs

/-- Embeds recording_manager_handle_recording of
src/src/audio/recording_manager.c lines 194-457, as the ordered list
of events enqueued during the call.  Structure: the track decision
block (lines 228-291), then the per-automation-track loop (lines
293-384), then, unless a stop was decided, the raw data block (lines
386-456): one midiData event per queued MIDI message, or a single
empty-marker midiData event, for MIDI-capable tracks, and one
audioData event for audio tracks. -/
def handle_recording (i : RecCycleInput) : List RecEvent :=
  let trackEvs :=
    if !(gatingOk i) then
      if track_type_can_record i.track.ty &&
         i.track.has_recording_region then
        [RecEvent.stopTrack]
      else []
    else
      if insidePunchRange i && track_type_can_record i.track.ty then
        if i.reached_loop_end && i.track.has_recording_region then
          [RecEvent.splitTrack]
        else if !i.track.has_recording_region then
          [RecEvent.startTrack]
        else []
      else []
  let autoEvs := (i.ats.map (automationCycleEvents i)).flatten
  let stop_recording := !(gatingOk i)
  let dataEvs :=
    if stop_recording then []
    else if track_has_piano_roll i.track.ty then
      if i.track.midi_in_events.isEmpty then
        [RecEvent.midiData false (0, 0)]
      else
        i.track.midi_in_events.map (fun e => RecEvent.midiData true e)
    else if i.track.ty = TrackType.audioKind then
      [RecEvent.audioData]
    else []
  trackEvs ++ autoEvs ++ dataEvs

/-! Consumer side: the split handler (handle_split_event, lines
660-823, track recording case). -/

/-- MIDI note of a region; positions are region-local frames.  A note
whose note-off has not arrived yet has ended set to false. -/
structure MidiNoteRec where
  pitch : Nat
  vel : Nat
  startPos : Int
  endPos : Int
  ended : Bool
  deriving DecidableEq

/-- Region of a track lane; startPos and endPos are timeline frames,
loopEndPos is region-local. -/
structure RegionRec where
  startPos : Int
  endPos : Int
  loopEndPos : Int
  lanePos : Nat
  notes : List MidiNoteRec
  deriving DecidableEq

/-- State read and written by the track branch of handle_split_event.
recording_region is an index into regions, standing for the
tr->recording_region pointer. -/
structure SplitTrackState where
  regions : List RegionRec
  recording_region : Option Nat
  in_signal_type : PortType
  loop_start_frames : Int
  loop_end_frames : Int
  deriving DecidableEq

/-- Closing of every unended note at the region-local loop boundary,
the effect of the pop loop at lines 728-739 (the helper
midi_region_pop_unended_note is not under src; modelled from the
spec: any unended MIDI notes still open at the split are closed at
the loop boundary). -/
def closeUnendedNotes (notes : List MidiNoteRec) (boundary : Int) :
    List MidiNoteRec :=
  notes.map fun n =>
    if n.ended then n else { n with ended := true, endPos := boundary }

/-- Embeds the RECORDING_EVENT_TYPE_SPLIT_TRACK_RECORDING branch of
handle_split_event (lines 681-823): the current recording region has
its end set to the transport loop end and its local loop end to the
same boundary; a new region is created at the transport loop start
(with a one-frame provisional end, line 675) in the lane one below
(lane_pos + 1) and becomes the recording region; for an event-signal
track every unended MIDI note of the old region is closed at the
boundary.  The helpers track_add_region, midi_region_new and
audio_region_new are not under src and are modelled from the spec:
the new region is appended to the track regions with the stated
start position and lane.  The audio sample copy into the clip (lines
795-821) does not affect the claimed positions and is not carried by
this region model. -/
def handle_split_track (st : SplitTrackState) : SplitTrackState :=
  match st.recording_region with
  | none => st
  | some ri =>
    match st.regions.get? ri with
    | none => st
    | some r =>
      let r_loop_end := st.loop_end_frames - r.startPos
      let r1 := { r with
        endPos := st.loop_end_frames
        loopEndPos := r_loop_end }
      if st.in_signal_type = PortType.event ∨
         st.in_signal_type = PortType.audio then
        let newRegion : RegionRec :=
          { startPos := st.loop_start_frames
            endPos := st.loop_start_frames + 1
            loopEndPos := 1
            lanePos := r.lanePos + 1
            notes := [] }
        let r2 :=
          if st.in_signal_type = PortType.event then
            { r1 with notes := closeUnendedNotes r1.notes r_loop_end }
          else r1
        { st with
          regions := st.regions.set ri r2 ++ [newRegion]
          recording_region := some st.regions.length }
      else st

/-! Operation sequences over the port graph, and the
pointer-identifier alignment invariant of the parallel arrays. -/

inductive PortOp
  | connect (src dest : PortId) (locked : Bool)
  | disconnect (src dest : PortId)

/-- State reached after one port operation. -/
def applyOp (s : PortGraph) : PortOp → PortGraph
  | PortOp.connect a b l => (port_connect s a b l).1
  | PortOp.disconnect a b => (port_disconnect s a b).1

/-- State reached after a sequence of port operations. -/
def applyOps (s : PortGraph) (ops : List PortOp) : PortGraph :=
  ops.foldl applyOp s

/-- Alignment of the dests pointer array with the dest_ids identifier
array of port p. -/
def destsAligned (s : PortGraph) (p : PortId) : Prop :=
  ∀ i, i < (s p).num_dests →
    (s p).dest_ids i = (s ((s p).dests i)).identifier

/-- Alignment of the srcs pointer array with the src_ids identifier
array of port p. -/
def srcsAligned (s : PortGraph) (p : PortId) : Prop :=
  ∀ i, i < (s p).num_srcs →
    (s p).src_ids i = (s ((s p).srcs i)).identifier

/-- The alignment invariant for every port of the graph. -/
def graphAligned (s : PortGraph) : Prop :=
  ∀ p, destsAligned s p ∧ srcsAligned s p

/-! Specification-side description of the control port update,
written from the spec wording for comparison with the code fold
(claim C9). -/

/-- Written from the spec (§4.2, control port): one cv source applies
a bipolar offset scaled by half the declared range and by the
connection multiplier to the given value, clamped to [min, max]. -/
def specControlStep (s : PortGraph) (p : PortId) (v : ℚ) (k : PortId) : ℚ :=
  clampG
    (v + ((s p).maxf - (s p).minf) / 2 * (s k).buf 0 *
      (s k).multipliers (port_get_dest_index s k p))
    (s p).minf (s p).maxf

/-- Written from the spec (§4.2, control port): only the cv-typed
sources act; the first one starts from the persisted base value, the
later ones from the running value; with no cv source the value is
untouched. -/
def specControlAfter (s : PortGraph) (p : PortId) : ℚ :=
  match (srcsList s p).filter
      (fun k => decide ((s k).identifier.ptype = PortType.cv)) with
  | [] => (s p).control
  | c :: rest =>
    rest.foldl (specControlStep s p)
      (specControlStep s p (s p).base_value c)

/-! Concrete states used by the closed witness and counterexample
theorems. -/

/-- A fresh identifier. -/
def mkIdent (l : Nat) (t : PortType) : PortIdentifier :=
  { label := l
    ownerType := PortOwnerType.track
    ptype := t
    flow := PortFlow.input
    flagStereoR := false
    trackPos := 0
    pluginSlot := 0 }

/-- A fresh unconnected port. -/
def mkPort (l : Nat) (t : PortType) : PortRec :=
  { identifier := mkIdent l t
    num_dests := 0
    dests := fun _ => 0
    dest_ids := fun _ => mkIdent 0 PortType.unknown
    multipliers := fun _ => 0
    dest_locked := fun _ => false
    dest_enabled := fun _ => false
    num_srcs := 0
    srcs := fun _ => 0
    src_ids := fun _ => mkIdent 0 PortType.unknown
    internal_type := PortInternalType.internalNone
    base_value := 0
    control := 0
    minf := 0
    maxf := 1
    buf := fun _ => 0
    midi_events := []
    extAudio := fun _ => 0
    extMidi := [] }

/-- Heap of fresh audio ports, one per id. -/
def gAudio : PortGraph := fun i => mkPort i PortType.audio

/-- Heap with a pre-existing edge from audio port 0 to control
port 1 (an incompatible pair, as could be loaded from a project
file). -/
def gPre : PortGraph := fun i =>
  if i = 0 then
    { mkPort 0 PortType.audio with
      num_dests := 1
      dests := fun _ => 1
      dest_ids := fun _ => mkIdent 1 PortType.control }
  else if i = 1 then
    { mkPort 1 PortType.control with
      num_srcs := 1
      srcs := fun _ => 0
      src_ids := fun _ => mkIdent 0 PortType.audio }
  else mkPort i PortType.unknown

/-- Heap with a cv port 0 and an lv2-internal control port 1 whose
base value 5 differs from its runtime control value 9. -/
def gCv : PortGraph := fun i =>
  if i = 0 then mkPort 0 PortType.cv
  else if i = 1 then
    { mkPort 1 PortType.control with
      internal_type := PortInternalType.lv2Port
      base_value := 5
      control := 9 }
  else mkPort i PortType.unknown

/-- Heap for the audio summation evaluation: audio port 2 has the
single source port 1 whose buffer is constantly 1. -/
def gSum : PortGraph := fun i =>
  if i = 1 then
    { mkPort 1 PortType.audio with
      num_dests := 1
      dests := fun _ => 2
      dest_ids := fun _ => mkIdent 2 PortType.audio
      buf := fun _ => 1 }
  else if i = 2 then
    { mkPort 2 PortType.audio with
      num_srcs := 1
      srcs := fun _ => 1
      src_ids := fun _ => mkIdent 1 PortType.audio }
  else mkPort i PortType.unknown

/-- Heap for the control modulation witness: control port 0 with
range [0, 10], base value 2, running value 7, and three sources: cv
port 1, audio port 2, cv port 3, each connected back to port 0 with
multiplier 1. -/
def gCtl : PortGraph := fun i =>
  if i = 0 then
    { mkPort 0 PortType.control with
      minf := 0
      maxf := 10
      base_value := 2
      control := 7
      num_srcs := 3
      srcs := fun n => n + 1
      src_ids := fun n => mkIdent (n + 1) PortType.unknown }
  else if i = 1 then
    { mkPort 1 PortType.cv with
      num_dests := 1
      dests := fun _ => 0
      dest_ids := fun _ => mkIdent 0 PortType.control
      multipliers := fun _ => 1
      buf := fun _ => 1 / 2 }
  else if i = 2 then
    { mkPort 2 PortType.audio with
      num_dests := 1
      dests := fun _ => 0
      dest_ids := fun _ => mkIdent 0 PortType.control
      multipliers := fun _ => 1
      buf := fun _ => 1 }
  else if i = 3 then
    { mkPort 3 PortType.cv with
      num_dests := 1
      dests := fun _ => 0
      dest_ids := fun _ => mkIdent 0 PortType.control
      multipliers := fun _ => 1
      buf := fun _ => 1 }
  else mkPort i PortType.unknown

/-- Heap for the pan witness: audio port 0 flagged stereo right, with
samples 1 at frame 0, one half at frame 1, 0 elsewhere. -/
def gPan : PortGraph := fun i =>
  if i = 0 then
    { mkPort 0 PortType.audio with
      identifier := { mkIdent 0 PortType.audio with flagStereoR := true }
      buf := fun j => if j = 0 then 1 else if j = 1 then 1 / 2 else 0 }
  else mkPort i PortType.unknown

/-- Cycle input for the recording decision witness: the global record
flag is off while the track still has an in-progress region, so the
cycle must stop the recording. -/
def c4In : RecCycleInput :=
  { transport :=
      { recording := false
        rolling := true
        punch_mode := false
        punch_in_frames := 0
        punch_out_frames := 0
        loop_start_frames := 0
        loop_end_frames := 1024
        }
    track :=
      { ty := TrackType.instrument
        recording := true
        has_recording_region := true
        midi_in_events := [(0, 1)] }
    ats := [{ portId := 7, recording_started := true,
              should_be_recording := false }]
    g_start_frames := 512
    local_offset := 0
    nframes := 64
    reached_loop_end := false }

/-- Region used by the loop split witness: starts at frame 10 and
holds a closed and a still-open note. -/
def c5Region : RegionRec :=
  { startPos := 10
    endPos := 90
    loopEndPos := 80
    lanePos := 0
    notes :=
      [{ pitch := 60, vel := 90, startPos := 0, endPos := 30,
         ended := true },
       { pitch := 64, vel := 100, startPos := 40, endPos := 50,
         ended := false }] }

/-- Split state for the loop split witness: the single region above
is being recorded, loop range [20, 100). -/
def c5St : SplitTrackState :=
  { regions := [c5Region]
    recording_region := some 0
    in_signal_type := PortType.event
    loop_start_frames := 20
    loop_end_frames := 100 }

/-! General lemmas about the array helpers and the connect and
disconnect steps.  These are shared infrastructure for the claim
theorems below. -/

theorem array_contains_iff {α : Type} [DecidableEq α] (f : Nat → α) (n : Nat) (x : α) :
    array_contains f n x = true ↔ ∃ i, i < n ∧ f i = x := by
  induction n with
  | zero => simp [array_contains]
  | succ m ih =>
    simp only [array_contains, Bool.or_eq_true, ih, decide_eq_true_eq]
    constructor
    · rintro (⟨i, hi, hx⟩ | hx)
      · exact ⟨i, Nat.lt_succ_of_lt hi, hx⟩
      · exact ⟨m, Nat.lt_succ_self m, hx⟩
    · rintro ⟨i, hi, hx⟩
      rcases Nat.lt_succ_iff_lt_or_eq.mp hi with h | h
      · exact Or.inl ⟨i, h, hx⟩
      · exact Or.inr (h ▸ hx)

theorem array_contains_false_iff {α : Type} [DecidableEq α] (f : Nat → α) (n : Nat) (x : α) :
    array_contains f n x = false ↔ ∀ i, i < n → f i ≠ x := by
  rw [← Bool.not_eq_true, array_contains_iff]
  push_neg
  constructor
  · intro h i hi
    exact h i hi
  · intro h i hi
    exact h i hi

theorem findPos_some_spec {α : Type} [DecidableEq α] (f : Nat → α) (n : Nat) (x : α) (p : Nat)
    (h : findPos f n x = some p) : p < n ∧ f p = x := by
  induction n with
  | zero => simp [findPos] at h
  | succ m ih =>
    simp only [findPos] at h
    rcases hm : findPos f m x with _ | q
    · rw [hm] at h
      by_cases hfx : f m = x
      · simp [hfx] at h
        exact ⟨h ▸ Nat.lt_succ_self m, h ▸ hfx⟩
      · simp [hfx] at h
    · rw [hm] at h
      cases h
      rcases ih hm with ⟨h1, h2⟩
      exact ⟨Nat.lt_succ_of_lt h1, h2⟩

theorem findPos_none_iff {α : Type} [DecidableEq α] (f : Nat → α) (n : Nat) (x : α) :
    findPos f n x = none ↔ ∀ i, i < n → f i ≠ x := by
  induction n with
  | zero => simp [findPos]
  | succ m ih =>
    simp only [findPos]
    rcases h : findPos f m x with _ | p
    · constructor
      · intro hnone i hi
        rcases Nat.lt_succ_iff_lt_or_eq.mp hi with him | him
        · exact ih.mp h i him
        · subst him
          intro hfx
          simp [hfx] at hnone
      · intro hall
        simp [hall m (Nat.lt_succ_self m)]
    · constructor
      · intro hc
        cases hc
      · intro hall
        have hs := findPos_some_spec f m x p h
        exact absurd hs.2 (hall p (Nat.lt_succ_of_lt hs.1))

theorem contains_shiftDel_false {α : Type} [DecidableEq α] (f : Nat → α) (n p : Nat) (x : α)
    (hp : p < n) (hfp : f p = x)
    (hu : ∀ i j, i < n → j < n → f i = x → f j = x → i = j) :
    array_contains (shiftDel f p n) (n - 1) x = false := by
  rw [array_contains_false_iff]
  intro j hj hx
  unfold shiftDel at hx
  by_cases hle : p ≤ j ∧ j < n - 1
  · rw [if_pos hle] at hx
    have : j + 1 = p := hu (j + 1) p (by omega) hp hx hfp
    omega
  · rw [if_neg hle] at hx
    have : j = p := hu j p (by omega) hp hx hfp
    omega

theorem contains_update_last {α : Type} [DecidableEq α] (f : Nat → α) (n : Nat) (x : α) :
    array_contains (Function.update f n x) (n + 1) x = true := by
  rw [array_contains_iff]
  exact ⟨n, Nat.lt_succ_self n, by simp [Function.update]⟩

theorem disconnectDests_preserves (s : PortGraph) (a b q : PortId) :
    (disconnectDests s a b q).identifier = (s q).identifier ∧
    (disconnectDests s a b q).num_srcs = (s q).num_srcs ∧
    (disconnectDests s a b q).srcs = (s q).srcs ∧
    (disconnectDests s a b q).src_ids = (s q).src_ids ∧
    (disconnectDests s a b q).internal_type = (s q).internal_type ∧
    (disconnectDests s a b q).control = (s q).control ∧
    (disconnectDests s a b q).base_value = (s q).base_value ∧
    (disconnectDests s a b q).multipliers = (s q).multipliers ∧
    (disconnectDests s a b q).buf = (s q).buf := by
  unfold disconnectDests
  rcases hf : findPos (s a).dests (s a).num_dests b with _ | p <;>
    by_cases h : q = a <;> simp [hf, Function.update, h]

theorem disconnectSrcs_preserves (s : PortGraph) (a b q : PortId) :
    (disconnectSrcs s a b q).identifier = (s q).identifier ∧
    (disconnectSrcs s a b q).num_dests = (s q).num_dests ∧
    (disconnectSrcs s a b q).dests = (s q).dests ∧
    (disconnectSrcs s a b q).dest_ids = (s q).dest_ids ∧
    (disconnectSrcs s a b q).internal_type = (s q).internal_type ∧
    (disconnectSrcs s a b q).control = (s q).control ∧
    (disconnectSrcs s a b q).base_value = (s q).base_value ∧
    (disconnectSrcs s a b q).multipliers = (s q).multipliers ∧
    (disconnectSrcs s a b q).buf = (s q).buf := by
  unfold disconnectSrcs
  rcases hf : findPos (s b).srcs (s b).num_srcs a with _ | p <;>
    by_cases h : q = b <;> simp [hf, Function.update, h]

theorem disconnectDests_apply_ne (s : PortGraph) (a b q : PortId) (h : q ≠ a) :
    disconnectDests s a b q = s q := by
  unfold disconnectDests
  rcases hf : findPos (s a).dests (s a).num_dests b with _ | p <;>
    simp [hf, Function.update, h]

theorem disconnectSrcs_apply_ne (s : PortGraph) (a b q : PortId) (h : q ≠ b) :
    disconnectSrcs s a b q = s q := by
  unfold disconnectSrcs
  rcases hf : findPos (s b).srcs (s b).num_srcs a with _ | p <;>
    simp [hf, Function.update, h]

theorem connectAppendDests_preserves (s : PortGraph) (a b : PortId) (l : Bool) (q : PortId) :
    (connectAppendDests s a b l q).identifier = (s q).identifier ∧
    (connectAppendDests s a b l q).num_srcs = (s q).num_srcs ∧
    (connectAppendDests s a b l q).srcs = (s q).srcs ∧
    (connectAppendDests s a b l q).src_ids = (s q).src_ids ∧
    (connectAppendDests s a b l q).internal_type = (s q).internal_type ∧
    (connectAppendDests s a b l q).control = (s q).control ∧
    (connectAppendDests s a b l q).base_value = (s q).base_value ∧
    (connectAppendDests s a b l q).buf = (s q).buf := by
  unfold connectAppendDests
  by_cases h : q = a <;> simp [Function.update, h]

theorem connectAppendDests_apply_ne (s : PortGraph) (a b : PortId) (l : Bool) (q : PortId)
    (h : q ≠ a) : connectAppendDests s a b l q = s q := by
  unfold connectAppendDests
  simp [Function.update, h]

theorem connectAppendSrcs_preserves (s : PortGraph) (a b q : PortId) :
    (connectAppendSrcs s a b q).identifier = (s q).identifier ∧
    (connectAppendSrcs s a b q).num_dests = (s q).num_dests ∧
    (connectAppendSrcs s a b q).dests = (s q).dests ∧
    (connectAppendSrcs s a b q).dest_ids = (s q).dest_ids ∧
    (connectAppendSrcs s a b q).internal_type = (s q).internal_type ∧
    (connectAppendSrcs s a b q).control = (s q).control ∧
    (connectAppendSrcs s a b q).base_value = (s q).base_value ∧
    (connectAppendSrcs s a b q).multipliers = (s q).multipliers ∧
    (connectAppendSrcs s a b q).buf = (s q).buf := by
  unfold connectAppendSrcs
  by_cases h : q = b <;> simp [Function.update, h]

theorem connectAppendSrcs_apply_ne (s : PortGraph) (a b q : PortId)
    (h : q ≠ b) : connectAppendSrcs s a b q = s q := by
  unfold connectAppendSrcs
  simp [Function.update, h]

theorem connectSeedBase_preserves (s : PortGraph) (a b q : PortId) :
    (connectSeedBase s a b q).identifier = (s q).identifier ∧
    (connectSeedBase s a b q).num_dests = (s q).num_dests ∧
    (connectSeedBase s a b q).dests = (s q).dests ∧
    (connectSeedBase s a b q).dest_ids = (s q).dest_ids ∧
    (connectSeedBase s a b q).num_srcs = (s q).num_srcs ∧
    (connectSeedBase s a b q).srcs = (s q).srcs ∧
    (connectSeedBase s a b q).src_ids = (s q).src_ids ∧
    (connectSeedBase s a b q).internal_type = (s q).internal_type ∧
    (connectSeedBase s a b q).control = (s q).control ∧
    (connectSeedBase s a b q).buf = (s q).buf := by
  unfold connectSeedBase
  by_cases h1 : (s a).identifier.ptype = PortType.cv ∧
      (s b).identifier.ptype = PortType.control <;>
    by_cases h2 : (s b).internal_type = PortInternalType.lv2Port <;>
      by_cases h : q = b <;> simp [Function.update, h1, h2, h]

theorem connectSeedBase_apply_ne (s : PortGraph) (a b q : PortId)
    (h : q ≠ b) : connectSeedBase s a b q = s q := by
  unfold connectSeedBase
  by_cases h1 : (s a).identifier.ptype = PortType.cv ∧
      (s b).identifier.ptype = PortType.control <;>
    by_cases h2 : (s b).internal_type = PortInternalType.lv2Port <;>
      simp [Function.update, h1, h2, h]

theorem port_disconnect_preserves (s : PortGraph) (a b q : PortId) :
    (((port_disconnect s a b).1) q).identifier = (s q).identifier ∧
    (((port_disconnect s a b).1) q).internal_type = (s q).internal_type ∧
    (((port_disconnect s a b).1) q).control = (s q).control ∧
    (((port_disconnect s a b).1) q).base_value = (s q).base_value ∧
    (((port_disconnect s a b).1) q).multipliers = (s q).multipliers ∧
    (((port_disconnect s a b).1) q).buf = (s q).buf := by
  unfold port_disconnect
  dsimp only
  have h1 := disconnectSrcs_preserves (disconnectDests s a b) a b q
  have h2 := disconnectDests_preserves s a b q
  refine ⟨?_, ?_, ?_, ?_, ?_, ?_⟩
  · rw [h1.1, h2.1]
  · rw [h1.2.2.2.2.1, h2.2.2.2.2.1]
  · rw [h1.2.2.2.2.2.1, h2.2.2.2.2.2.1]
  · rw [h1.2.2.2.2.2.2.1, h2.2.2.2.2.2.2.1]
  · rw [h1.2.2.2.2.2.2.2.1, h2.2.2.2.2.2.2.2.1]
  · rw [h1.2.2.2.2.2.2.2.2, h2.2.2.2.2.2.2.2.2]

theorem connectAppendDests_self (s : PortGraph) (a b : PortId) (l : Bool) :
    (connectAppendDests s a b l a).dests =
      Function.update (s a).dests (s a).num_dests b ∧
    (connectAppendDests s a b l a).num_dests = (s a).num_dests + 1 ∧
    (connectAppendDests s a b l a).dest_ids =
      Function.update (s a).dest_ids (s a).num_dests (s b).identifier := by
  unfold connectAppendDests
  simp [Function.update]

theorem connectAppendSrcs_self (s : PortGraph) (a b : PortId) :
    (connectAppendSrcs s a b b).srcs =
      Function.update (s b).srcs (s b).num_srcs a ∧
    (connectAppendSrcs s a b b).num_srcs = (s b).num_srcs + 1 ∧
    (connectAppendSrcs s a b b).src_ids =
      Function.update (s b).src_ids (s b).num_srcs (s a).identifier := by
  unfold connectAppendSrcs
  simp [Function.update]

theorem disconnectDests_eq_of_none (s : PortGraph) (a b : PortId)
    (hf : findPos (s a).dests (s a).num_dests b = none) :
    disconnectDests s a b = s := by
  simp only [disconnectDests, hf]

theorem disconnectSrcs_eq_of_none (s : PortGraph) (a b : PortId)
    (hf : findPos (s b).srcs (s b).num_srcs a = none) :
    disconnectSrcs s a b = s := by
  simp only [disconnectSrcs, hf]

theorem disconnectDests_self_of_some (s : PortGraph) (a b : PortId) (p : Nat)
    (hf : findPos (s a).dests (s a).num_dests b = some p) :
    (disconnectDests s a b a).dests = shiftDel (s a).dests p (s a).num_dests ∧
    (disconnectDests s a b a).num_dests = (s a).num_dests - 1 ∧
    (disconnectDests s a b a).dest_ids =
      shiftDel (s a).dest_ids p (s a).num_dests := by
  simp only [disconnectDests, hf]
  simp [Function.update]

theorem disconnectSrcs_self_of_some (s : PortGraph) (a b : PortId) (p : Nat)
    (hf : findPos (s b).srcs (s b).num_srcs a = some p) :
    (disconnectSrcs s a b b).srcs = shiftDel (s b).srcs p (s b).num_srcs ∧
    (disconnectSrcs s a b b).num_srcs = (s b).num_srcs - 1 ∧
    (disconnectSrcs s a b b).src_ids =
      shiftDel (s b).src_ids p (s b).num_srcs := by
  simp only [disconnectSrcs, hf]
  simp [Function.update]

theorem typesCompatible_after_disconnect (s : PortGraph) (a b : PortId) :
    typesCompatible ((port_disconnect s a b).1 a).identifier.ptype
        ((port_disconnect s a b).1 b).identifier.ptype =
      typesCompatible (s a).identifier.ptype (s b).identifier.ptype := by
  rw [(port_disconnect_preserves s a b a).1, (port_disconnect_preserves s a b b).1]

theorem port_connect_of_compatible (s : PortGraph) (a b : PortId) (l : Bool)
    (h : typesCompatible (s a).identifier.ptype (s b).identifier.ptype = true) :
    port_connect s a b l =
      (connectSeedBase
        (connectAppendSrcs
          (connectAppendDests (port_disconnect s a b).1 a b l) a b) a b, 0) := by
  unfold port_connect
  dsimp only
  rw [if_pos (by rw [typesCompatible_after_disconnect]; exact h)]

theorem port_connect_of_incompatible (s : PortGraph) (a b : PortId) (l : Bool)
    (h : typesCompatible (s a).identifier.ptype (s b).identifier.ptype = false) :
    port_connect s a b l = ((port_disconnect s a b).1, -1) := by
  unfold port_connect
  dsimp only
  rw [if_neg (by rw [typesCompatible_after_disconnect, h]; simp)]

theorem port_connect_ret_iff (s : PortGraph) (a b : PortId) (l : Bool) :
    (port_connect s a b l).2 = 0 ↔
      typesCompatible (s a).identifier.ptype (s b).identifier.ptype = true := by
  by_cases h : typesCompatible (s a).identifier.ptype (s b).identifier.ptype = true
  · rw [port_connect_of_compatible s a b l h]
    simp [h]
  · rw [port_connect_of_incompatible s a b l (Bool.not_eq_true _ ▸ h)]
    simp [h]

theorem port_connect_inserts_edge (s : PortGraph) (a b : PortId) (l : Bool)
    (h : typesCompatible (s a).identifier.ptype (s b).identifier.ptype = true) :
    ports_connected (port_connect s a b l).1 a b = true ∧
    array_contains ((port_connect s a b l).1 b).srcs
      ((port_connect s a b l).1 b).num_srcs a = true := by
  rw [port_connect_of_compatible s a b l h]
  dsimp only
  set s0 := (port_disconnect s a b).1 with hs0
  set s1 := connectAppendDests s0 a b l with hs1
  set s2 := connectAppendSrcs s1 a b with hs2
  constructor
  · unfold ports_connected
    rw [(connectSeedBase_preserves s2 a b a).2.2.1,
      (connectSeedBase_preserves s2 a b a).2.1,
      (connectAppendSrcs_preserves s1 a b a).2.2.1,
      (connectAppendSrcs_preserves s1 a b a).2.1,
      (connectAppendDests_self s0 a b l).1,
      (connectAppendDests_self s0 a b l).2.1]
    exact contains_update_last _ _ _
  · obtain ⟨-, -, -, -, hns, hsx, -, -, -, -⟩ := connectSeedBase_preserves s2 a b b
    rw [hsx, hns, (connectAppendSrcs_self s1 a b).1,
      (connectAppendSrcs_self s1 a b).2.1]
    exact contains_update_last _ _ _

theorem disconnect_removes_edge (s : PortGraph) (a b : PortId)
    (hud : ∀ i j, i < (s a).num_dests → j < (s a).num_dests →
      (s a).dests i = b → (s a).dests j = b → i = j)
    (hus : ∀ i j, i < (s b).num_srcs → j < (s b).num_srcs →
      (s b).srcs i = a → (s b).srcs j = a → i = j) :
    ports_connected (port_disconnect s a b).1 a b = false ∧
    array_contains ((port_disconnect s a b).1 b).srcs
      ((port_disconnect s a b).1 b).num_srcs a = false := by
  unfold port_disconnect
  dsimp only
  set t := disconnectDests s a b with ht
  constructor
  · unfold ports_connected
    obtain ⟨-, hnd, hd, -, -, -, -, -, -⟩ := disconnectSrcs_preserves t a b a
    rw [hd, hnd]
    rcases hf : findPos (s a).dests (s a).num_dests b with _ | p
    · rw [ht, disconnectDests_eq_of_none s a b hf]
      rw [array_contains_false_iff]
      exact (findPos_none_iff _ _ _).mp hf
    · obtain ⟨hd2, hnd2, -⟩ := disconnectDests_self_of_some s a b p hf
      rw [ht, hd2, hnd2]
      obtain ⟨hp, hfp⟩ := findPos_some_spec _ _ _ _ hf
      exact contains_shiftDel_false _ _ _ _ hp hfp hud
  · obtain ⟨-, hnsb, hsb, -, -, -, -, -, -⟩ := disconnectDests_preserves s a b b
    rcases hf : findPos (t b).srcs (t b).num_srcs a with _ | p
    · rw [disconnectSrcs_eq_of_none t a b hf]
      rw [hsb, hnsb, array_contains_false_iff]
      rw [hsb, hnsb] at hf
      exact (findPos_none_iff _ _ _).mp hf
    · obtain ⟨hs2, hns2, -⟩ := disconnectSrcs_self_of_some t a b p hf
      rw [hs2, hns2, hsb, hnsb]
      rw [hsb, hnsb] at hf
      obtain ⟨hp, hfp⟩ := findPos_some_spec _ _ _ _ hf
      exact contains_shiftDel_false _ _ _ _ hp hfp hus

theorem disconnect_noop_when_absent (s : PortGraph) (a b : PortId)
    (hd : array_contains (s a).dests (s a).num_dests b = false)
    (hs : array_contains (s b).srcs (s b).num_srcs a = false) :
    port_disconnect s a b = (s, 0) := by
  unfold port_disconnect
  have hfd : findPos (s a).dests (s a).num_dests b = none :=
    (findPos_none_iff _ _ _).mpr ((array_contains_false_iff _ _ _).mp hd)
  rw [disconnectDests_eq_of_none s a b hfd]
  have hfs : findPos (s b).srcs (s b).num_srcs a = none :=
    (findPos_none_iff _ _ _).mpr ((array_contains_false_iff _ _ _).mp hs)
  rw [disconnectSrcs_eq_of_none s a b hfs]


theorem control_fold_false (s : PortGraph) (p : PortId) (l : List PortId) (v : ℚ) :
    List.foldl (controlStep s p) (v, false) l =
      ((l.filter (fun k => decide ((s k).identifier.ptype = PortType.cv))).foldl
        (specControlStep s p) v, false) := by
  induction l generalizing v with
  | nil => simp
  | cons k rest ih =>
    simp only [List.foldl_cons, List.filter_cons]
    by_cases hk : (s k).identifier.ptype = PortType.cv
    · rw [show controlStep s p (v, false) k = (specControlStep s p v k, false) by
        simp [controlStep, specControlStep, hk]]
      rw [ih]
      simp [hk]
    · rw [show controlStep s p (v, false) k = (v, false) by simp [controlStep, hk]]
      rw [ih]
      simp [hk]

theorem control_fold_spec (s : PortGraph) (p : PortId) (l : List PortId) :
    (List.foldl (controlStep s p) ((s p).control, true) l).1 =
      (match l.filter (fun k => decide ((s k).identifier.ptype = PortType.cv)) with
       | [] => (s p).control
       | c :: rest =>
         rest.foldl (specControlStep s p)
           (specControlStep s p (s p).base_value c)) := by
  induction l with
  | nil => simp
  | cons k rest ih =>
    simp only [List.foldl_cons, List.filter_cons]
    by_cases hk : (s k).identifier.ptype = PortType.cv
    · rw [show controlStep s p ((s p).control, true) k =
          (specControlStep s p (s p).base_value k, false) by
        simp [controlStep, specControlStep, hk]]
      rw [control_fold_false]
      simp [hk]
    · rw [show controlStep s p ((s p).control, true) k = ((s p).control, true) by
        simp [controlStep, hk]]
      rw [ih]
      simp [hk]

theorem sum_inputs_control_branch (s : PortGraph) (p : PortId)
    (start n : Nat) (noroll : Bool)
    (h : (s p).identifier.ptype = PortType.control) :
    port_sum_signal_from_inputs s p start n noroll = sumControl s p := by
  unfold port_sum_signal_from_inputs
  rw [h]

theorem disconnectDests_aligned (s : PortGraph) (a b : PortId)
    (h : graphAligned s) : graphAligned (disconnectDests s a b) := by
  intro p
  have hidq : ∀ q, (disconnectDests s a b q).identifier = (s q).identifier :=
    fun q => (disconnectDests_preserves s a b q).1
  constructor
  · intro i hi
    rw [hidq]
    by_cases hp : p = a
    · subst hp
      rcases hf : findPos (s p).dests (s p).num_dests b with _ | pos
      · rw [disconnectDests_eq_of_none s p b hf] at hi ⊢
        exact (h p).1 i hi
      · obtain ⟨hd, hn, hdi⟩ := disconnectDests_self_of_some s p b pos hf
        rw [hd, hdi]
        rw [hn] at hi
        unfold shiftDel
        by_cases hin : pos ≤ i ∧ i < (s p).num_dests - 1
        · rw [if_pos hin, if_pos hin]
          exact (h p).1 (i + 1) (by omega)
        · rw [if_neg hin, if_neg hin]
          exact (h p).1 i (by omega)
    · rw [disconnectDests_apply_ne s a b p hp] at hi ⊢
      exact (h p).1 i hi
  · intro i hi
    rw [hidq]
    obtain ⟨-, hns, hsx, hsi, -, -, -, -, -⟩ := disconnectDests_preserves s a b p
    rw [hns] at hi
    rw [hsx, hsi]
    exact (h p).2 i hi

theorem disconnectSrcs_aligned (s : PortGraph) (a b : PortId)
    (h : graphAligned s) : graphAligned (disconnectSrcs s a b) := by
  intro p
  have hidq : ∀ q, (disconnectSrcs s a b q).identifier = (s q).identifier :=
    fun q => (disconnectSrcs_preserves s a b q).1
  constructor
  · intro i hi
    rw [hidq]
    obtain ⟨-, hnd, hd, hdi, -, -, -, -, -⟩ := disconnectSrcs_preserves s a b p
    rw [hnd] at hi
    rw [hd, hdi]
    exact (h p).1 i hi
  · intro i hi
    rw [hidq]
    by_cases hp : p = b
    · subst hp
      rcases hf : findPos (s p).srcs (s p).num_srcs a with _ | pos
      · rw [disconnectSrcs_eq_of_none s a p hf] at hi ⊢
        exact (h p).2 i hi
      · obtain ⟨hs2, hn, hsi⟩ := disconnectSrcs_self_of_some s a p pos hf
        rw [hs2, hsi]
        rw [hn] at hi
        unfold shiftDel
        by_cases hin : pos ≤ i ∧ i < (s p).num_srcs - 1
        · rw [if_pos hin, if_pos hin]
          exact (h p).2 (i + 1) (by omega)
        · rw [if_neg hin, if_neg hin]
          exact (h p).2 i (by omega)
    · rw [disconnectSrcs_apply_ne s a b p hp] at hi ⊢
      exact (h p).2 i hi

theorem connectAppendDests_aligned (s : PortGraph) (a b : PortId) (l : Bool)
    (h : graphAligned s) : graphAligned (connectAppendDests s a b l) := by
  intro p
  have hidq : ∀ q, (connectAppendDests s a b l q).identifier = (s q).identifier :=
    fun q => (connectAppendDests_preserves s a b l q).1
  constructor
  · intro i hi
    rw [hidq]
    by_cases hp : p = a
    · subst hp
      obtain ⟨hd, hn, hdi⟩ := connectAppendDests_self s p b l
      rw [hd, hdi]
      rw [hn] at hi
      by_cases hieq : i = (s p).num_dests
      · subst hieq
        simp [Function.update]
      · rw [Function.update_noteq hieq, Function.update_noteq hieq]
        exact (h p).1 i (by omega)
    · rw [connectAppendDests_apply_ne s a b l p hp] at hi ⊢
      exact (h p).1 i hi
  · intro i hi
    rw [hidq]
    obtain ⟨-, hns, hsx, hsi, -, -, -, -⟩ := connectAppendDests_preserves s a b l p
    rw [hns] at hi
    rw [hsx, hsi]
    exact (h p).2 i hi

theorem connectAppendSrcs_aligned (s : PortGraph) (a b : PortId)
    (h : graphAligned s) : graphAligned (connectAppendSrcs s a b) := by
  intro p
  have hidq : ∀ q, (connectAppendSrcs s a b q).identifier = (s q).identifier :=
    fun q => (connectAppendSrcs_preserves s a b q).1
  constructor
  · intro i hi
    rw [hidq]
    obtain ⟨-, hnd, hd, hdi, -, -, -, -, -⟩ := connectAppendSrcs_preserves s a b p
    rw [hnd] at hi
    rw [hd, hdi]
    exact (h p).1 i hi
  · intro i hi
    rw [hidq]
    by_cases hp : p = b
    · subst hp
      obtain ⟨hs2, hn, hsi⟩ := connectAppendSrcs_self s a p
      rw [hs2, hsi]
      rw [hn] at hi
      by_cases hieq : i = (s p).num_srcs
      · subst hieq
        simp [Function.update]
      · rw [Function.update_noteq hieq, Function.update_noteq hieq]
        exact (h p).2 i (by omega)
    · rw [connectAppendSrcs_apply_ne s a b p hp] at hi ⊢
      exact (h p).2 i hi

theorem connectSeedBase_aligned (s : PortGraph) (a b : PortId)
    (h : graphAligned s) : graphAligned (connectSeedBase s a b) := by
  intro p
  have hidq : ∀ q, (connectSeedBase s a b q).identifier = (s q).identifier :=
    fun q => (connectSeedBase_preserves s a b q).1
  obtain ⟨-, hnd, hd, hdi, hns, hsx, hsi, -, -, -⟩ := connectSeedBase_preserves s a b p
  constructor
  · intro i hi
    rw [hnd] at hi
    rw [hidq, hd, hdi]
    exact (h p).1 i hi
  · intro i hi
    rw [hns] at hi
    rw [hidq, hsx, hsi]
    exact (h p).2 i hi

theorem port_disconnect_aligned (s : PortGraph) (a b : PortId)
    (h : graphAligned s) : graphAligned (port_disconnect s a b).1 :=
  disconnectSrcs_aligned (disconnectDests s a b) a b
    (disconnectDests_aligned s a b h)

theorem port_connect_aligned (s : PortGraph) (a b : PortId) (l : Bool)
    (h : graphAligned s) : graphAligned (port_connect s a b l).1 := by
  by_cases hc : typesCompatible (s a).identifier.ptype (s b).identifier.ptype = true
  · rw [port_connect_of_compatible s a b l hc]
    exact connectSeedBase_aligned _ a b
      (connectAppendSrcs_aligned _ a b
        (connectAppendDests_aligned _ a b l
          (port_disconnect_aligned s a b h)))
  · rw [port_connect_of_incompatible s a b l (Bool.not_eq_true _ ▸ hc)]
    exact port_disconnect_aligned s a b h

theorem applyOp_aligned (s : PortGraph) (op : PortOp)
    (h : graphAligned s) : graphAligned (applyOp s op) := by
  cases op with
  | connect a b l => exact port_connect_aligned s a b l h
  | disconnect a b => exact port_disconnect_aligned s a b h

theorem mem_automationCycleEvents_isAutomation (i : RecCycleInput) (at_ : AutoTrackRec)
    (e : RecEvent) (he : e ∈ automationCycleEvents i at_) : e.isAutomation = true := by
  unfold automationCycleEvents at he
  rw [List.mem_append] at he
  rcases he with he | he
  · split at he
    · rw [List.mem_singleton] at he
      subst he
      rfl
    · simp at he
  · split at he
    · split at he
      · rw [List.mem_singleton] at he
        subst he
        rfl
      · split at he
        · simp only [List.mem_cons, List.mem_singleton, List.not_mem_nil,
            or_false] at he
          rcases he with rfl | rfl <;> rfl
        · rw [List.mem_singleton] at he
          subst he
          rfl
    · simp at he

theorem mem_autoEvents_isAutomation (i : RecCycleInput) (e : RecEvent)
    (he : e ∈ (i.ats.map (automationCycleEvents i)).flatten) :
    e.isAutomation = true := by
  rw [List.mem_flatten] at he
  obtain ⟨l, hl, hel⟩ := he
  rw [List.mem_map] at hl
  obtain ⟨at_, -, rfl⟩ := hl
  exact mem_automationCycleEvents_isAutomation i at_ e hel

theorem closeUnendedNotes_all_ended (notes : List MidiNoteRec) (b : Int) :
    ∀ n ∈ closeUnendedNotes notes b, n.ended = true := by
  intro n hn
  unfold closeUnendedNotes at hn
  rw [List.mem_map] at hn
  obtain ⟨m, -, rfl⟩ := hn
  by_cases hm : m.ended <;> simp [hm]

theorem closeUnendedNotes_mem (notes : List MidiNoteRec) (b : Int) (n : MidiNoteRec)
    (hn : n ∈ notes) (hne : n.ended = false) :
    { n with ended := true, endPos := b } ∈ closeUnendedNotes notes b := by
  unfold closeUnendedNotes
  rw [List.mem_map]
  exact ⟨n, hn, by simp [hne]⟩


/-! Claim theorems.  Each claim of the specification is settled by
exactly one theorem below; counterexample and witness theorems
evaluate the definitions at concrete heaps. -/

/-- C1 counterexample: starting from a heap of fresh audio ports,
connecting 0 to 1 and then 1 to 0 both succeed (return 0) and
afterwards both edges are present, a directed cycle of length two in
the routing graph.  The claim says the second call must be rejected
and leave the graph unchanged. -/
theorem connect_cycle_not_rejected :
    (port_connect gAudio 0 1 false).2 = 0 ∧
    (port_connect (port_connect gAudio 0 1 false).1 1 0 false).2 = 0 ∧
    ports_connected
      (port_connect (port_connect gAudio 0 1 false).1 1 0 false).1 0 1 = true ∧
    ports_connected
      (port_connect (port_connect gAudio 0 1 false).1 1 0 false).1 1 0 = true := by
  decide

/-- C1 amended: port_connect performs no acyclicity check at all; it
accepts every type-compatible pair regardless of the surrounding
graph, returning 0 and inserting the edge (the cycle check exists
only in the separate predicate ports_can_be_connected, which
port_connect never consults). -/
theorem port_connect_no_cycle_check (s : PortGraph) (a b : PortId) (l : Bool)
    (h : typesCompatible (s a).identifier.ptype (s b).identifier.ptype = true) :
    (port_connect s a b l).2 = 0 ∧
    ports_connected (port_connect s a b l).1 a b = true :=
  ⟨(port_connect_ret_iff s a b l).mpr h, (port_connect_inserts_edge s a b l h).1⟩

/-- C1 witness: the amended theorem applied to the fresh audio heap. -/
theorem port_connect_no_cycle_check_witness :
    typesCompatible (gAudio 0).identifier.ptype (gAudio 1).identifier.ptype = true ∧
    ((port_connect gAudio 0 1 false).2 = 0 ∧
     ports_connected (port_connect gAudio 0 1 false).1 0 1 = true) :=
  ⟨by decide, port_connect_no_cycle_check gAudio 0 1 false (by decide)⟩

/-- C2 counterexample: on a heap holding a pre-existing edge from
audio port 0 to control port 1, the incompatible call
port_connect(0, 1) returns -1 but the pre-existing edge is gone
afterwards, because port_disconnect runs before the type check.  The
claim says the edge must still be present after the failed call. -/
theorem connect_failure_loses_existing_edge :
    ports_connected gPre 0 1 = true ∧
    (port_connect gPre 0 1 false).2 = -1 ∧
    ports_connected (port_connect gPre 0 1 false).1 0 1 = false := by
  decide

/-- C2 amended: port_connect succeeds (returns 0) exactly when the
signal kinds are equal or cv drives control; an incompatible call
returns -1, but its resulting state is the state after the
unconditional initial port_disconnect(src, dest): a pre-existing edge
between the pair is removed even by the failed call, and nothing else
changes. -/
theorem port_connect_failure_semantics (s : PortGraph) (a b : PortId) (l : Bool) :
    ((port_connect s a b l).2 = 0 ↔
      typesCompatible (s a).identifier.ptype (s b).identifier.ptype = true) ∧
    (typesCompatible (s a).identifier.ptype (s b).identifier.ptype = false →
      port_connect s a b l = ((port_disconnect s a b).1, -1)) :=
  ⟨port_connect_ret_iff s a b l, fun h => port_connect_of_incompatible s a b l h⟩

/-- C2 witness: the amended theorem applied to the heap with the
incompatible pre-existing edge. -/
theorem port_connect_failure_semantics_witness :
    typesCompatible (gPre 0).identifier.ptype (gPre 1).identifier.ptype = false ∧
    port_connect gPre 0 1 false = ((port_disconnect gPre 0 1).1, -1) :=
  ⟨by decide, (port_connect_failure_semantics gPre 0 1 false).2 (by decide)⟩

/-- C7 counterexample: connecting cv port 0 into lv2 control port 1
whose base value is 5 and runtime control value is 9 leaves the
runtime value at 9 and overwrites the base value with 9: the code
seeds the base value from the runtime value, not the runtime value
from the base value as the claim states. -/
theorem cv_connect_counterexample :
    (gCv 1).base_value = 5 ∧
    (gCv 1).control = 9 ∧
    (port_connect gCv 0 1 false).2 = 0 ∧
    ((port_connect gCv 0 1 false).1 1).control = 9 ∧
    ((port_connect gCv 0 1 false).1 1).base_value = 9 ∧
    ((port_connect gCv 0 1 false).1 1).control ≠ (gCv 1).base_value := by
  decide

/-- C7 amended: when port_connect succeeds with a cv source and a
control destination whose internal type is lv2, the destination BASE
value is seeded from its current runtime (lv2 control) value, and the
runtime value itself is unchanged. -/
theorem port_connect_cv_seeds_base_from_control (s : PortGraph) (a b : PortId) (l : Bool)
    (hcv : (s a).identifier.ptype = PortType.cv)
    (hctl : (s b).identifier.ptype = PortType.control)
    (hlv2 : (s b).internal_type = PortInternalType.lv2Port) :
    (port_connect s a b l).2 = 0 ∧
    ((port_connect s a b l).1 b).base_value = (s b).control ∧
    ((port_connect s a b l).1 b).control = (s b).control := by
  have hab : a ≠ b := by
    intro h
    rw [h, hctl] at hcv
    cases hcv
  set s0 := (port_disconnect s a b).1 with hs0
  have h0a : (s0 a).identifier = (s a).identifier :=
    (port_disconnect_preserves s a b a).1
  have h0b : (s0 b).identifier = (s b).identifier :=
    (port_disconnect_preserves s a b b).1
  have h0bi : (s0 b).internal_type = (s b).internal_type :=
    (port_disconnect_preserves s a b b).2.1
  have h0bc : (s0 b).control = (s b).control :=
    (port_disconnect_preserves s a b b).2.2.1
  have hcompat : typesCompatible (s0 a).identifier.ptype (s0 b).identifier.ptype = true := by
    simp [typesCompatible, h0a, h0b, hcv, hctl]
  set s1 := connectAppendDests s0 a b l with hs1
  set s2 := connectAppendSrcs s1 a b with hs2
  have h2a : (s2 a).identifier = (s a).identifier := by
    rw [(connectAppendSrcs_preserves s1 a b a).1,
      (connectAppendDests_preserves s0 a b l a).1, h0a]
  have h2b : (s2 b).identifier = (s b).identifier := by
    rw [(connectAppendSrcs_preserves s1 a b b).1,
      (connectAppendDests_preserves s0 a b l b).1, h0b]
  have h2bi : (s2 b).internal_type = (s b).internal_type := by
    rw [(connectAppendSrcs_preserves s1 a b b).2.2.2.2.1,
      (connectAppendDests_preserves s0 a b l b).2.2.2.2.1, h0bi]
  have h2bc : (s2 b).control = (s b).control := by
    rw [(connectAppendSrcs_preserves s1 a b b).2.2.2.2.2.1,
      (connectAppendDests_preserves s0 a b l b).2.2.2.2.2.1, h0bc]
  have hconn : port_connect s a b l = (connectSeedBase s2 a b, 0) := by
    unfold port_connect
    dsimp only
    rw [← hs0, if_pos hcompat, ← hs1, ← hs2]
  refine ⟨by rw [hconn], ?_, ?_⟩
  · rw [hconn]
    dsimp only
    unfold connectSeedBase
    rw [if_pos ⟨by rw [h2a, hcv], by rw [h2b, hctl]⟩, if_pos (by rw [h2bi, hlv2])]
    simp [Function.update, h2bc]
  · rw [hconn]
    dsimp only
    rw [(connectSeedBase_preserves s2 a b b).2.2.2.2.2.2.2.2.1, h2bc]

/-- C7 witness: the amended theorem applied to the cv and control
heap with base value 5 and runtime value 9. -/
theorem port_connect_cv_seeds_base_witness :
    (gCv 0).identifier.ptype = PortType.cv ∧
    (gCv 1).identifier.ptype = PortType.control ∧
    (gCv 1).internal_type = PortInternalType.lv2Port ∧
    ((port_connect gCv 0 1 false).2 = 0 ∧
     ((port_connect gCv 0 1 false).1 1).base_value = (gCv 1).control ∧
     ((port_connect gCv 0 1 false).1 1).control = (gCv 1).control) :=
  ⟨by decide, by decide, by decide,
    port_connect_cv_seeds_base_from_control gCv 0 1 false
      (by decide) (by decide) (by decide)⟩


/-- C3: evaluation of the audio summation at the failing input.  Port
2 has one source (port 1, buffer constantly 1) and a zero buffer;
summing with start_frame 2 and nframes 3 must, per the claim, add the
source at every frame of [2, 5).  The C loop at
src/src/audio/port.c line 988 runs for l in [start_frame, nframes),
so only frame 2 receives the source and frames 3 and 4 stay 0,
contradicting the claim (and the documented meaning of nframes as a
frame count, as used by every sibling loop in the file). -/
theorem audio_sum_wrong_loop_bound_eval :
    ((port_sum_signal_from_inputs gSum 2 2 3 false) 2).buf 2 = 1 ∧
    ((port_sum_signal_from_inputs gSum 2 2 3 false) 2).buf 3 = 0 ∧
    ((port_sum_signal_from_inputs gSum 2 2 3 false) 2).buf 4 = 0 := by
  norm_num +decide [port_sum_signal_from_inputs, sumAudio, gSum,
    port_sum_data_from_jack, srcsList, audioSumStep, mkPort, mkIdent,
    Function.update, List.range_succ]

/-- C6: connect and disconnect symmetry.  After a successful
port_connect(a, b), ports_connected(a, b) holds, b is in the dests
array of a (definitionally the same membership) and a is in the srcs
array of b.  After port_disconnect(a, b) on a graph whose edge lists
hold the pair at most once (the list-consistency invariant of the
data model), the membership is false on both sides.  When no edge
exists in either array, port_disconnect changes nothing and still
returns 0. -/
theorem connect_disconnect_symmetry (s : PortGraph) (a b : PortId) (l : Bool) :
    ((port_connect s a b l).2 = 0 →
       ports_connected (port_connect s a b l).1 a b = true ∧
       array_contains ((port_connect s a b l).1 a).dests
         ((port_connect s a b l).1 a).num_dests b = true ∧
       array_contains ((port_connect s a b l).1 b).srcs
         ((port_connect s a b l).1 b).num_srcs a = true) ∧
    ((∀ i j, i < (s a).num_dests → j < (s a).num_dests →
        (s a).dests i = b → (s a).dests j = b → i = j) →
     (∀ i j, i < (s b).num_srcs → j < (s b).num_srcs →
        (s b).srcs i = a → (s b).srcs j = a → i = j) →
       ports_connected (port_disconnect s a b).1 a b = false ∧
       array_contains ((port_disconnect s a b).1 b).srcs
         ((port_disconnect s a b).1 b).num_srcs a = false) ∧
    (array_contains (s a).dests (s a).num_dests b = false →
     array_contains (s b).srcs (s b).num_srcs a = false →
       port_disconnect s a b = (s, 0)) := by
  refine ⟨?_, disconnect_removes_edge s a b, disconnect_noop_when_absent s a b⟩
  intro h
  obtain ⟨h1, h2⟩ :=
    port_connect_inserts_edge s a b l ((port_connect_ret_iff s a b l).mp h)
  exact ⟨h1, h1, h2⟩

/-- C6 witness: the three parts applied at concrete heaps: a
successful connect on the fresh audio heap, a disconnect of the
existing edge of gPre, and a disconnect on the fresh heap where no
edge exists. -/
theorem connect_disconnect_symmetry_witness :
    (ports_connected (port_connect gAudio 0 1 false).1 0 1 = true ∧
     array_contains ((port_connect gAudio 0 1 false).1 0).dests
       ((port_connect gAudio 0 1 false).1 0).num_dests 1 = true ∧
     array_contains ((port_connect gAudio 0 1 false).1 1).srcs
       ((port_connect gAudio 0 1 false).1 1).num_srcs 0 = true) ∧
    (ports_connected (port_disconnect gPre 0 1).1 0 1 = false ∧
     array_contains ((port_disconnect gPre 0 1).1 1).srcs
       ((port_disconnect gPre 0 1).1 1).num_srcs 0 = false) ∧
    port_disconnect gAudio 0 1 = (gAudio, 0) := by
  refine ⟨(connect_disconnect_symmetry gAudio 0 1 false).1 (by decide),
    (connect_disconnect_symmetry gPre 0 1 false).2.1 ?_ ?_,
    (connect_disconnect_symmetry gAudio 0 1 false).2.2 (by decide) (by decide)⟩
  · intro i j hi hj hfi hfj
    simp [gPre, mkPort] at hi hj
    omega
  · intro i j hi hj hfi hfj
    simp [gPre, mkPort] at hi hj
    omega

/-- C8: with the linear pan algorithm and pan position 3/10, the left
scalar is exactly 7/10 and the right scalar exactly 3/10 (both exact
in binary floating point as well, since 1 - 0.3f and 1.0f * 0.3f
round to 0.7f and 0.3f); every non-zero in-range sample of a
stereo-right-flagged port is multiplied by the right scalar, so an
in-range sample of value 1 becomes exactly 3/10. -/
theorem apply_pan_linear_right (s : PortGraph) (p : PortId) (law : PanLaw)
    (sinf sqrtf : ℚ → ℚ) (start n : Nat)
    (hflag : (s p).identifier.flagStereoR = true) :
    panScalars PanAlgorithm.linear sinf sqrtf (3 / 10) = (7 / 10, 3 / 10) ∧
    (∀ i, start ≤ i → i < start + n → (s p).buf i ≠ 0 →
      ((port_apply_pan s p (3 / 10) law PanAlgorithm.linear sinf sqrtf start n) p).buf i =
        (s p).buf i * (3 / 10)) ∧
    (∀ i, start ≤ i → i < start + n → (s p).buf i = 1 →
      ((port_apply_pan s p (3 / 10) law PanAlgorithm.linear sinf sqrtf start n) p).buf i =
        3 / 10) := by
  have hscal : panScalars PanAlgorithm.linear sinf sqrtf (3 / 10) = (7 / 10, 3 / 10) := by
    unfold panScalars
    norm_num
  refine ⟨hscal, ?_, ?_⟩
  · intro i h1 h2 h3
    unfold port_apply_pan
    rw [hscal]
    simp [Function.update, hflag, h1, h2, h3]
  · intro i h1 h2 h3
    unfold port_apply_pan
    rw [hscal]
    simp [Function.update, hflag, h1, h2, h3]

/-- C8 witness: the theorem applied to the stereo-right heap; the
sample of value 1 at frame 0 becomes 3/10. -/
theorem apply_pan_linear_right_witness :
    (gPan 0).identifier.flagStereoR = true ∧
    panScalars PanAlgorithm.linear id id (3 / 10) = (7 / 10, 3 / 10) ∧
    ((port_apply_pan gPan 0 (3 / 10) PanLaw.zeroDB PanAlgorithm.linear id id 0 2) 0).buf 0 =
      3 / 10 := by
  obtain ⟨hs, -, hone⟩ :=
    apply_pan_linear_right gPan 0 PanLaw.zeroDB id id 0 2 (by decide)
  exact ⟨by decide, hs, hone 0 (Nat.le_refl 0) (by omega) (by decide)⟩

/-- C9: for a control port, port_sum_signal_from_inputs never writes
the persisted base value, and the resulting running control value is
exactly the specification-side fold over the cv-typed sources only:
the first cv source applies its offset to the base value, later ones
to the running value, and non-cv sources have no effect through this
path. -/
theorem control_port_sum_spec (s : PortGraph) (p : PortId)
    (start n : Nat) (noroll : Bool)
    (h : (s p).identifier.ptype = PortType.control) :
    ((port_sum_signal_from_inputs s p start n noroll) p).base_value =
      (s p).base_value ∧
    ((port_sum_signal_from_inputs s p start n noroll) p).control =
      specControlAfter s p := by
  rw [sum_inputs_control_branch s p start n noroll h]
  unfold sumControl
  constructor
  · simp [Function.update]
  · simp only [Function.update, specControlAfter]
    simp only [control_fold_spec]
    simp

/-- C9 witness: the theorem applied to the control heap with sources
cv, audio, cv. -/
theorem control_port_sum_spec_witness :
    (gCtl 0).identifier.ptype = PortType.control ∧
    (((port_sum_signal_from_inputs gCtl 0 0 4 false) 0).base_value =
      (gCtl 0).base_value ∧
     ((port_sum_signal_from_inputs gCtl 0 0 4 false) 0).control =
      specControlAfter gCtl 0) :=
  ⟨by decide, control_port_sum_spec gCtl 0 0 4 false (by decide)⟩

/-- C10: the parallel pointer and identifier arrays stay aligned.  If
every port of the heap satisfies dest_ids i = identifier of dests i
and src_ids i = identifier of srcs i below the element counts, then
the property still holds after any sequence of port_connect and
port_disconnect operations, including the element shifts performed on
removal. -/
theorem port_ops_preserve_alignment (s : PortGraph) (ops : List PortOp)
    (h : graphAligned s) : graphAligned (applyOps s ops) := by
  induction ops generalizing s with
  | nil => exact h
  | cons op rest ih =>
    simp only [applyOps, List.foldl_cons]
    have := ih (applyOp s op) (applyOp_aligned s op h)
    simpa [applyOps] using this

/-- C10 witness: the theorem applied to the fresh audio heap and a
concrete connect followed by a disconnect. -/
theorem port_ops_preserve_alignment_witness :
    graphAligned gAudio ∧
    graphAligned
      (applyOps gAudio [PortOp.connect 0 1 true, PortOp.disconnect 0 1]) := by
  have h : graphAligned gAudio := by
    intro p
    constructor
    · intro i hi
      simp [gAudio, mkPort] at hi
    · intro i hi
      simp [gAudio, mkPort] at hi
  exact ⟨h, port_ops_preserve_alignment gAudio _ h⟩


/-- C4: per-cycle recording decision on a recordable track.  When any
gating condition fails and the track has an in-progress region,
exactly one StopTrackRecording event is enqueued and no MIDI or audio
data event is enqueued this cycle; when gating holds at a loop-end
tail with a region, a SplitTrackRecording event is enqueued; when
gating holds with no region, a StartTrackRecording event is
enqueued. -/
theorem handle_recording_decision (i : RecCycleInput)
    (hrec : track_type_can_record i.track.ty = true) :
    (gatingOk i = false → i.track.has_recording_region = true →
       (handle_recording i).count RecEvent.stopTrack = 1 ∧
       (handle_recording i).countP (fun e => e.isTrackData) = 0) ∧
    (gatingOk i = true → i.reached_loop_end = true →
       i.track.has_recording_region = true →
       RecEvent.splitTrack ∈ handle_recording i) ∧
    (gatingOk i = true → i.track.has_recording_region = false →
       RecEvent.startTrack ∈ handle_recording i) := by
  refine ⟨?_, ?_, ?_⟩
  · intro hg hreg
    have hform : handle_recording i =
        [RecEvent.stopTrack] ++ (i.ats.map (automationCycleEvents i)).flatten ++ [] := by
      unfold handle_recording
      simp [hg, hrec, hreg]
    rw [hform]
    constructor
    · rw [List.count_append, List.count_append]
      have h0 : ((i.ats.map (automationCycleEvents i)).flatten.count
          RecEvent.stopTrack) = 0 := by
        rw [List.count_eq_zero]
        intro hmem
        have := mem_autoEvents_isAutomation i _ hmem
        simp [RecEvent.isAutomation] at this
      rw [h0]
      rfl
    · rw [List.countP_append, List.countP_append]
      have h0 : ((i.ats.map (automationCycleEvents i)).flatten.countP
          (fun e => e.isTrackData)) = 0 := by
        rw [List.countP_eq_zero]
        intro e hmem hp
        have := mem_autoEvents_isAutomation i e hmem
        cases e <;> simp_all [RecEvent.isAutomation, RecEvent.isTrackData]
      rw [h0]
      rfl
  · intro hg hloop hreg
    have hinside : insidePunchRange i = true := by
      unfold gatingOk at hg
      simp only [Bool.and_eq_true] at hg
      exact hg.2
    have hform : handle_recording i =
        [RecEvent.splitTrack] ++ (i.ats.map (automationCycleEvents i)).flatten ++
          (if track_has_piano_roll i.track.ty then
            if i.track.midi_in_events.isEmpty then
              [RecEvent.midiData false (0, 0)]
            else i.track.midi_in_events.map (fun e => RecEvent.midiData true e)
          else if i.track.ty = TrackType.audioKind then [RecEvent.audioData]
          else []) := by
      unfold handle_recording
      simp [hg, hrec, hreg, hloop, hinside]
    rw [hform]
    simp
  · intro hg hreg
    have hinside : insidePunchRange i = true := by
      unfold gatingOk at hg
      simp only [Bool.and_eq_true] at hg
      exact hg.2
    have hform : handle_recording i =
        [RecEvent.startTrack] ++ (i.ats.map (automationCycleEvents i)).flatten ++
          (if track_has_piano_roll i.track.ty then
            if i.track.midi_in_events.isEmpty then
              [RecEvent.midiData false (0, 0)]
            else i.track.midi_in_events.map (fun e => RecEvent.midiData true e)
          else if i.track.ty = TrackType.audioKind then [RecEvent.audioData]
          else []) := by
      unfold handle_recording
      simp [hg, hrec, hreg, hinside]
    rw [hform]
    simp

/-- C4 witness: the decision theorem applied to a concrete cycle
whose global record flag is off while a region is in progress: the
stop branch fires. -/
theorem handle_recording_decision_witness :
    track_type_can_record c4In.track.ty = true ∧
    ((handle_recording c4In).count RecEvent.stopTrack = 1 ∧
     (handle_recording c4In).countP (fun e => e.isTrackData) = 0) :=
  ⟨by decide,
    (handle_recording_decision c4In (by decide)).1 (by decide) (by decide)⟩

/-- C5: consuming a SplitTrackRecording event for an event-signal
track closes the current recording region exactly at the transport
loop end (keeping its start and lane), closes every still-open MIDI
note of that region at the region-local loop boundary, appends one
new region that starts exactly at the transport loop start in the
lane one greater, and makes the new region the recording region, so
the loop pass is represented by exactly two regions whose frame
coverage meets at the loop boundary with no gap or overlap. -/
theorem handle_split_track_spec (st : SplitTrackState) (ri : Nat) (r : RegionRec)
    (hrr : st.recording_region = some ri)
    (hr : st.regions.get? ri = some r)
    (hsig : st.in_signal_type = PortType.event) :
    (handle_split_track st).regions.length = st.regions.length + 1 ∧
    (handle_split_track st).recording_region = some st.regions.length ∧
    (∀ r', (handle_split_track st).regions.get? ri = some r' →
       r'.endPos = st.loop_end_frames ∧
       r'.startPos = r.startPos ∧
       r'.lanePos = r.lanePos ∧
       (∀ n ∈ r'.notes, n.ended = true) ∧
       (∀ n ∈ r.notes, n.ended = false →
          { n with ended := true, endPos := st.loop_end_frames - r.startPos } ∈ r'.notes)) ∧
    (∀ nr, (handle_split_track st).regions.get? st.regions.length = some nr →
       nr.startPos = st.loop_start_frames ∧ nr.lanePos = r.lanePos + 1) := by
  have hr2 : st.regions[ri]? = some r := by
    rw [← List.get?_eq_getElem?]
    exact hr
  have hlt : ri < st.regions.length := by
    obtain ⟨h, -⟩ := List.getElem?_eq_some_iff.mp hr2
    exact h
  have hform : handle_split_track st =
      { st with
        regions := st.regions.set ri
          { r with
            endPos := st.loop_end_frames
            loopEndPos := st.loop_end_frames - r.startPos
            notes := closeUnendedNotes r.notes
              (st.loop_end_frames - r.startPos) } ++
          [{ startPos := st.loop_start_frames
             endPos := st.loop_start_frames + 1
             loopEndPos := 1
             lanePos := r.lanePos + 1
             notes := [] }]
        recording_region := some st.regions.length } := by
    unfold handle_split_track
    rw [hrr]
    dsimp only
    rw [hr]
    dsimp only
    rw [if_pos (Or.inl hsig), if_pos hsig]
  rw [hform]
  refine ⟨by simp, rfl, ?_, ?_⟩
  · intro r' hr'
    rw [List.get?_eq_getElem?,
      List.getElem?_append_left (by simpa using hlt),
      List.getElem?_set_eq_of_lt _ hlt] at hr'
    cases hr'
    refine ⟨rfl, rfl, rfl, ?_, ?_⟩
    · exact closeUnendedNotes_all_ended r.notes _
    · intro n hn hne
      exact closeUnendedNotes_mem r.notes _ n hn hne
  · intro nr hnr
    rw [List.get?_eq_getElem?,
      List.getElem?_append_right (by simp)] at hnr
    simp at hnr
    rw [← hnr]
    exact ⟨rfl, rfl⟩

/-- C5 witness: the split theorem applied to the concrete state with
one open note; the region count grows to two and the new region
becomes the recording region. -/
theorem handle_split_track_spec_witness :
    c5St.recording_region = some 0 ∧
    c5St.regions.get? 0 = some c5Region ∧
    c5St.in_signal_type = PortType.event ∧
    ((handle_split_track c5St).regions.length = c5St.regions.length + 1 ∧
     (handle_split_track c5St).recording_region = some c5St.regions.length) := by
  obtain ⟨h1, h2, -, -⟩ :=
    handle_split_track_spec c5St 0 c5Region rfl (by decide) rfl
  exact ⟨rfl, by decide, rfl, h1, h2⟩

end Zrythm
